import Mathlib

/-!
Shallow embedding of the report parsers of the GraficosCompararSearch
repository (criar_csv.py, comparasolucao.py, graficoEscolha.py).

Strings are modelled as `List Char`; the Python string operations used by the
code (`strip`, `split('|')`, `split()`, `replace(old, '')`, `endswith`,
slicing `[:-1]`, `int(...)`, `float(...)`) are embedded as executable
functions below.  Python exceptions that escape the code (`IndexError` from
`.split()[0]`, `ValueError` from `int`/`float` in graficoEscolha.py) are
modelled by `Option`: `none` stands for an uncaught exception reaching the
caller, while caught `ValueError`s inside `parse_data` are the `skip` outcome
of a line.  Python floats are modelled exactly (an inductive with a finite
rational case and inf / -inf / nan cases); IEEE rounding is irrelevant to the
properties verified here.
-/

namespace GCS

/-- Characters removed by Python `str.strip()` (ASCII whitespace; all data
handled by this repository is ASCII). -/
def isPySpace (c : Char) : Bool :=
  c = ' ' || c = '\t' || c = '\n' || c = '\r' || c = '\x0b' || c = '\x0c'

/-- Python `str.strip()`: drop leading and trailing whitespace. -/
def pyStrip (l : List Char) : List Char :=
  ((l.dropWhile isPySpace).reverse.dropWhile isPySpace).reverse

/-- Python `str.split(sep)` for a one-character separator: splits on every
occurrence, keeping empty parts (so `split` of the empty string is `[""]`). -/
def splitOnChar (sep : Char) : List Char → List (List Char)
  | [] => [[]]
  | c :: rest =>
    if c = sep then [] :: splitOnChar sep rest
    else
      match splitOnChar sep rest with
      | [] => [[c]]
      | p :: ps => (c :: p) :: ps

/-- Worker for `pyReplace`: `k` is the number of characters still being
consumed by a pattern occurrence that has already been matched. -/
def pyReplaceGo (pat : List Char) : List Char → Nat → List Char
  | [], _ => []
  | c :: rest, 0 =>
    if (c :: rest).take pat.length = pat then pyReplaceGo pat rest (pat.length - 1)
    else c :: pyReplaceGo pat rest 0
  | _ :: rest, k + 1 => pyReplaceGo pat rest k

/-- Python `str.replace(pat, '')` (every call site in this repository replaces
with the empty string): delete the leftmost non-overlapping occurrences of
`pat`.  Python's behaviour for an empty `pat` (interleaving) is never
exercised here; we return the input unchanged in that unreachable case. -/
def pyReplace (s pat : List Char) : List Char :=
  if pat.isEmpty then s else pyReplaceGo pat s 0

/-- Python `str.split()[0]`: first whitespace-delimited token, or `none` when
there is no token at all (in which case Python raises `IndexError`). -/
def firstTokenWs? (l : List Char) : Option (List Char) :=
  let t := l.dropWhile isPySpace
  if t.isEmpty then none else some (t.takeWhile (fun c => !isPySpace c))

/-- Digit-sequence worker shared by the `int`/`float` models: consumes digits
with Python's underscore grouping (a `_` must sit between two digits). -/
def goDigits (acc : Nat) : List Char → Option Nat
  | [] => some acc
  | '_' :: c :: rest =>
    if c.isDigit then goDigits (acc * 10 + (c.toNat - 48)) rest else none
  | c :: rest =>
    if c.isDigit then goDigits (acc * 10 + (c.toNat - 48)) rest else none

/-- A non-empty digit sequence (with Python underscore grouping). -/
def digitsUS? : List Char → Option Nat
  | [] => none
  | c :: rest => if c.isDigit then goDigits (c.toNat - 48) rest else none

/-- Python `int(str)`: strip whitespace, optional sign, then digits. -/
def pyInt? (l : List Char) : Option Int :=
  match pyStrip l with
  | '-' :: rest => (digitsUS? rest).map (fun n : ℕ => -(n : Int))
  | '+' :: rest => (digitsUS? rest).map (fun n : ℕ => (n : Int))
  | t => (digitsUS? t).map (fun n : ℕ => (n : Int))

/-- Value of a Python float, exactly: a finite rational, an infinity, or NaN.
(The program never does arithmetic on these, so exact rationals are a
faithful carrier; NaN payloads/sign are irrelevant here.) -/
inductive PyFloat where
  | finite (q : ℚ)
  | inf
  | ninf
  | nan
deriving DecidableEq, Repr

/-- Case-insensitive comparison against a lowercase pattern. -/
def lowerEq (l pat : List Char) : Bool :=
  l.map Char.toLower = pat

/-- Fractional-digit worker: value so far and number of digits consumed
(underscores allowed between digits, not counted). -/
def goFrac (acc cnt : Nat) : List Char → Option (Nat × Nat)
  | [] => some (acc, cnt)
  | '_' :: c :: rest =>
    if c.isDigit then goFrac (acc * 10 + (c.toNat - 48)) (cnt + 1) rest else none
  | c :: rest =>
    if c.isDigit then goFrac (acc * 10 + (c.toNat - 48)) (cnt + 1) rest else none

/-- A non-empty fractional digit sequence: its value and digit count. -/
def fracUS? : List Char → Option (Nat × Nat)
  | [] => none
  | c :: rest => if c.isDigit then goFrac (c.toNat - 48) 1 rest else none

/-- Split a character list at the first character satisfying `p`, returning
the parts before and after it, or `none` when no such character occurs. -/
def breakAt (p : Char → Bool) : List Char → Option (List Char × List Char)
  | [] => none
  | c :: rest =>
    if p c then some ([], rest)
    else (breakAt p rest).map (fun ab => (c :: ab.1, ab.2))

/-- Mantissa of a Python float literal: `digits`, `digits.`, `.digits` or
`digits.digits` (each digit group possibly with underscores). -/
def mantissaVal? (m : List Char) : Option ℚ :=
  match breakAt (fun c => c = '.') m with
  | none => (digitsUS? m).map (fun n : ℕ => (n : ℚ))
  | some (ip, fp) =>
    match ip, fp with
    | [], [] => none
    | [], fp =>
      (fracUS? fp).map (fun vc : ℕ × ℕ => (vc.1 : ℚ) / (10 : ℚ) ^ vc.2)
    | ip, [] => (digitsUS? ip).map (fun n : ℕ => (n : ℚ))
    | ip, fp => do
      let i ← digitsUS? ip
      let vc ← fracUS? fp
      pure ((i : ℚ) + (vc.1 : ℚ) / (10 : ℚ) ^ vc.2)

/-- Exponent part of a Python float literal: optional sign, digits. -/
def expVal? (l : List Char) : Option Int :=
  match l with
  | '-' :: rest => (digitsUS? rest).map (fun n : ℕ => -(n : Int))
  | '+' :: rest => (digitsUS? rest).map (fun n : ℕ => (n : Int))
  | t => (digitsUS? t).map (fun n : ℕ => (n : Int))

/-- Numeric (non-special) body of a Python float literal. -/
def pyFloatNum? (t : List Char) : Option ℚ :=
  match breakAt (fun c => c = 'e' || c = 'E') t with
  | none => mantissaVal? t
  | some me => do
    let mv ← mantissaVal? me.1
    let ev ← expVal? me.2
    pure (mv * (10 : ℚ) ^ ev)

/-- Body of `float(str)` after the optional sign was removed. -/
def pyFloatBody? (neg : Bool) (t : List Char) : Option PyFloat :=
  if lowerEq t "inf".data || lowerEq t "infinity".data then
    some (if neg then .ninf else .inf)
  else if lowerEq t "nan".data then some .nan
  else (pyFloatNum? t).map (fun q => .finite (if neg then -q else q))

/-- Python `float(str)`: strip whitespace, optional sign, then a special word
(`inf`, `infinity`, `nan`, case-insensitive) or a decimal literal. -/
def pyFloat? (l : List Char) : Option PyFloat :=
  match pyStrip l with
  | '-' :: rest => pyFloatBody? true rest
  | '+' :: rest => pyFloatBody? false rest
  | t => pyFloatBody? false t

/-- The five data fields of one parsed benchmark line (the dictionary built by
both `parse_data` bodies, minus the `search` tag that only criar_csv.py
adds). -/
structure Entry where
  nodes : Int
  goal : Int
  cost : PyFloat
  actions : Int
  problem : List Char
deriving DecidableEq, Repr

/-- Outcome of attempting one data line inside the `try` block: a parsed
entry, a caught `ValueError` (the line is skipped), or an uncaught
`IndexError` from `.split()[0]` (the whole parse aborts). -/
inductive LineRes (α : Type) where
  | ok (a : α)
  | skip
  | err
deriving DecidableEq, Repr

/-- Source line `cost = float(cost) if cost != 'inf' else float('inf')`
(identical in criar_csv.py and comparasolucao.py): `none` is an uncaught
`ValueError` — caught by the surrounding `try`, so it means "skip line". -/
def costOfToken (tok : List Char) : Option PyFloat :=
  if tok = "inf".data then some PyFloat.inf else pyFloat? tok

namespace CriarCsv

/-- Flat-mode record: the entry fields plus the `'search'` key holding the
enclosing section name (criar_csv.py lines 180-187). -/
structure RecordF where
  entry : Entry
  search : List Char
deriving DecidableEq, Repr

/-- Body of the `try` block of criar_csv.py `parse_data` (lines 173-189),
evaluated in source order on the `|`-split fields of a line. -/
def parseLineF (parts : List (List Char)) : LineRes Entry :=
  match pyInt? (pyReplace (pyStrip (pyReplace (parts.getD 0 []) " nodes".data)) ",".data) with
  | none => .skip
  | some nodes =>
    match pyInt? (pyReplace (pyStrip (pyReplace (parts.getD 1 []) " goal".data)) ",".data) with
    | none => .skip
    | some goal =>
      match firstTokenWs? (pyStrip (pyReplace (parts.getD 2 []) " cost".data)) with
      | none => .err
      | some tok =>
        match costOfToken tok with
        | none => .skip
        | some cost =>
          match pyInt? (pyReplace (pyStrip (pyReplace (parts.getD 3 []) " actions".data)) ",".data) with
          | none => .skip
          | some actions =>
            .ok ⟨nodes, goal, cost, actions, pyStrip (parts.getD 4 [])⟩

/-- One iteration of the `for line in data.strip().split('\n')` loop of
criar_csv.py `parse_data`, on state (current_algorithm, all_data).  `none`
models the uncaught `IndexError`. -/
def stepF (st : Option (List Char) × List RecordF) (line : List Char) :
    Option (Option (List Char) × List RecordF) :=
  let t := pyStrip line
  if t.getLast? = some ':' then some (some t.dropLast, st.2)
  else
    match st.1 with
    | none => some st
    | some alg =>
      if alg = [] ∨ t = [] then some st
      else
        let parts := splitOnChar '|' t
        if 5 ≤ parts.length then
          match parseLineF parts with
          | .ok e => some (st.1, st.2 ++ [⟨e, alg⟩])
          | .skip => some st
          | .err => none
        else some st

/-- The whole loop over the lines. -/
def runLines (st : Option (List Char) × List RecordF) :
    List (List Char) → Option (Option (List Char) × List RecordF)
  | [] => some st
  | l :: ls =>
    match stepF st l with
    | none => none
    | some st' => runLines st' ls

/-- criar_csv.py `parse_data` (lines 160-190): flat-mode parse of the whole
input.  `none` models the uncaught `IndexError`. -/
def parse_data (s : String) : Option (List RecordF) :=
  (runLines (none, []) (splitOnChar '\n' (pyStrip s.data))).map (·.2)

end CriarCsv

namespace Comparasolucao

/-- The grouped-mode result: Python's insertion-ordered dict from section
name to list of entries, as an ordered association list (keys unique). -/
abbrev Dict := List (List Char × List Entry)

/-- Python `algorithms[k] = v`: overwrite in place if present (keeping the
key's position), else append at the end. -/
def dictSet (d : Dict) (k : List Char) (v : List Entry) : Dict :=
  match d with
  | [] => [(k, v)]
  | (k', v') :: rest =>
    if k' = k then (k, v) :: rest else (k', v') :: dictSet rest k v

/-- Python `algorithms[k].append(e)`.  Keys are unique by construction
(entries are only created by `dictSet`), so updating the first occurrence is
faithful; the key is always present when this is reached, so the
missing-key `KeyError` case is unreachable and the no-op is never observed. -/
def dictAppend (d : Dict) (k : List Char) (e : Entry) : Dict :=
  match d with
  | [] => []
  | (k', v') :: rest =>
    if k' = k then (k', v' ++ [e]) :: rest else (k', v') :: dictAppend rest k e

/-- Ordered-dict lookup. -/
def dictFind? (d : Dict) (k : List Char) : Option (List Entry) :=
  match d with
  | [] => none
  | (k', v') :: rest => if k' = k then some v' else dictFind? rest k

/-- Body of the `try` block of comparasolucao.py `parse_data` (lines
177-193): identical to the flat parser except that no unit word
(` nodes` / ` goal` / ` cost` / ` actions`) is removed from the fields. -/
def parseLineG (parts : List (List Char)) : LineRes Entry :=
  match pyInt? (pyReplace (pyStrip (parts.getD 0 [])) ",".data) with
  | none => .skip
  | some nodes =>
    match pyInt? (pyReplace (pyStrip (parts.getD 1 [])) ",".data) with
    | none => .skip
    | some goal =>
      match firstTokenWs? (pyStrip (parts.getD 2 [])) with
      | none => .err
      | some tok =>
        match costOfToken tok with
        | none => .skip
        | some cost =>
          match pyInt? (pyReplace (pyStrip (parts.getD 3 [])) ",".data) with
          | none => .skip
          | some actions =>
            .ok ⟨nodes, goal, cost, actions, pyStrip (parts.getD 4 [])⟩

/-- One iteration of the loop of comparasolucao.py `parse_data` on state
(current_algorithm, algorithms); a header line also resets its dict entry to
the empty list (line 173). -/
def stepG (st : Option (List Char) × Dict) (line : List Char) :
    Option (Option (List Char) × Dict) :=
  let t := pyStrip line
  if t.getLast? = some ':' then
    some (some t.dropLast, dictSet st.2 t.dropLast [])
  else
    match st.1 with
    | none => some st
    | some alg =>
      if alg = [] ∨ t = [] then some st
      else
        let parts := splitOnChar '|' t
        if 5 ≤ parts.length then
          match parseLineG parts with
          | .ok e => some (st.1, dictAppend st.2 alg e)
          | .skip => some st
          | .err => none
        else some st

/-- The whole loop over the lines. -/
def runLines (st : Option (List Char) × Dict) :
    List (List Char) → Option (Option (List Char) × Dict)
  | [] => some st
  | l :: ls =>
    match stepG st l with
    | none => none
    | some st' => runLines st' ls

/-- comparasolucao.py `parse_data` (lines 162-195): grouped-mode parse.
`none` models the uncaught `IndexError`. -/
def parse_data (s : String) : Option Dict :=
  (runLines (none, []) (splitOnChar '\n' (pyStrip s.data))).map (·.2)

end Comparasolucao

namespace GraficoEscolha

/-- The list comprehension of graficoEscolha.py line 42:
`[int(x.strip()) - 1 for x in selected_problems_str.split(",")]`.  The first
non-numeric token raises an uncaught `ValueError`, modelled by `none`. -/
def parseTokens : List (List Char) → Option (List Int)
  | [] => some []
  | x :: xs =>
    match pyInt? (pyStrip x) with
    | none => none
    | some n => (parseTokens xs).map (fun l => (n - 1) :: l)

/-- graficoEscolha.py lines 41-45: split the user's selection string on
commas, convert each token to a 0-based index, and keep (in order) the
available problems whose index is in range. -/
def selected_problems (avail : List (List Char)) (s : String) :
    Option (List (List Char)) :=
  (parseTokens (splitOnChar ',' s.data)).map (fun nums =>
    nums.filterMap (fun i =>
      if 0 ≤ i ∧ i < (avail.length : Int) then some (avail.getD i.toNat []) else none))

end GraficoEscolha

/-- Classification of a single non-header line by the flat parser: what the
loop body of criar_csv.py does with it once a (truthy) section is active. -/
def lineResF (line : List Char) : LineRes Entry :=
  let t := pyStrip line
  if t = [] then .skip
  else if 5 ≤ (splitOnChar '|' t).length then CriarCsv.parseLineF (splitOnChar '|' t)
  else .skip

/-- Classification of a single non-header line by the grouped parser. -/
def lineResG (line : List Char) : LineRes Entry :=
  let t := pyStrip line
  if t = [] then .skip
  else if 5 ≤ (splitOnChar '|' t).length then Comparasolucao.parseLineG (splitOnChar '|' t)
  else .skip

/-- The entries the flat parser emits from a run of non-header lines. -/
def entriesF (ls : List (List Char)) : List Entry :=
  ls.filterMap (fun l =>
    match lineResF l with
    | .ok e => some e
    | _ => none)

/-- The entries the grouped parser emits from a run of non-header lines. -/
def entriesG (ls : List (List Char)) : List Entry :=
  ls.filterMap (fun l =>
    match lineResG l with
    | .ok e => some e
    | _ => none)

/-- Modelled from the spec: the Tabular Store (pandas `DataFrame.to_csv`,
called at criar_csv.py line 195 but implemented outside this repository)
encodes the unbounded-cost sentinel as the textual token `inf`. -/
def encodeSentinel : List Char := "inf".data

/-! ### Helper lemmas: characters of derived strings come from the source -/

theorem mem_pyStrip {c : Char} {l : List Char} (h : c ∈ pyStrip l) : c ∈ l := by
  unfold pyStrip at h
  rw [List.mem_reverse] at h
  have h1 := (List.dropWhile_sublist (l := (l.dropWhile isPySpace).reverse)
    (p := isPySpace)).mem h
  rw [List.mem_reverse] at h1
  exact (List.dropWhile_sublist (l := l) (p := isPySpace)).mem h1

theorem mem_splitOnChar {c : Char} {sep : Char} :
    ∀ {l : List Char} {p : List Char}, p ∈ splitOnChar sep l → c ∈ p → c ∈ l := by
  intro l
  induction l with
  | nil =>
    intro p hp hc
    simp only [splitOnChar, List.mem_singleton] at hp
    subst hp
    simp at hc
  | cons a rest ih =>
    intro p hp hc
    simp only [splitOnChar] at hp
    by_cases ha : a = sep
    · rw [if_pos ha] at hp
      rcases List.mem_cons.mp hp with h | h
      · subst h; simp at hc
      · exact List.mem_cons_of_mem _ (ih h hc)
    · rw [if_neg ha] at hp
      rcases hsp : splitOnChar sep rest with - | ⟨q, qs⟩
      · rw [hsp] at hp
        simp only [List.mem_singleton] at hp
        subst hp
        rcases List.mem_singleton.mp hc with rfl
        exact List.mem_cons_self _ _
      · rw [hsp] at hp
        rcases List.mem_cons.mp hp with h | h
        · subst h
          rcases List.mem_cons.mp hc with rfl | h
          · exact List.mem_cons_self _ _
          · exact List.mem_cons_of_mem _ (ih (hsp ▸ List.mem_cons_self _ _) h)
        · exact List.mem_cons_of_mem _ (ih (hsp ▸ List.mem_cons_of_mem _ h) hc)

theorem mem_pyReplaceGo {c : Char} {pat : List Char} :
    ∀ {s : List Char} {k : Nat}, c ∈ pyReplaceGo pat s k → c ∈ s := by
  intro s
  induction s with
  | nil => intro k h; simp [pyReplaceGo] at h
  | cons a rest ih =>
    intro k h
    match k with
    | 0 =>
      rw [pyReplaceGo] at h
      split at h
      · exact List.mem_cons_of_mem _ (ih h)
      · rcases List.mem_cons.mp h with rfl | h
        · exact List.mem_cons_self _ _
        · exact List.mem_cons_of_mem _ (ih h)
    | k + 1 =>
      rw [pyReplaceGo] at h
      exact List.mem_cons_of_mem _ (ih h)

theorem mem_pyReplace {c : Char} {s pat : List Char} (h : c ∈ pyReplace s pat) :
    c ∈ s := by
  unfold pyReplace at h
  split at h
  · exact h
  · exact mem_pyReplaceGo h

theorem mem_firstTokenWs {c : Char} {l tok : List Char}
    (h : firstTokenWs? l = some tok) (hc : c ∈ tok) : c ∈ l := by
  unfold firstTokenWs? at h
  dsimp only at h
  split at h
  · exact absurd h (by simp)
  · have htok : tok = (l.dropWhile isPySpace).takeWhile (fun c => !isPySpace c) := by
      exact (Option.some.injEq _ _ ▸ h).symm
    subst htok
    have h1 := (List.takeWhile_sublist (l := l.dropWhile isPySpace)
      (p := fun c => !isPySpace c)).mem hc
    exact (List.dropWhile_sublist (l := l) (p := isPySpace)).mem h1

/-! ### Helper lemmas: sign of parsed numbers -/

theorem pyInt?_nonneg {l : List Char} {n : Int} (h : pyInt? l = some n)
    (hm : '-' ∉ l) : 0 ≤ n := by
  unfold pyInt? at h
  split at h
  · rename_i rest heq
    refine absurd (mem_pyStrip (l := l) ?_) hm
    rw [heq]
    exact List.mem_cons_self _ _
  · rcases Option.map_eq_some'.mp h with ⟨m, -, rfl⟩
    exact Int.ofNat_nonneg m
  · rcases Option.map_eq_some'.mp h with ⟨m, -, rfl⟩
    exact Int.ofNat_nonneg m

theorem mantissaVal?_nonneg {l : List Char} {q : ℚ} (h : mantissaVal? l = some q) :
    0 ≤ q := by
  unfold mantissaVal? at h
  split at h
  · rcases Option.map_eq_some'.mp h with ⟨m, -, rfl⟩
    exact Nat.cast_nonneg m
  · split at h
    · exact absurd h (by simp)
    · rcases Option.map_eq_some'.mp h with ⟨vc, -, rfl⟩
      exact div_nonneg (Nat.cast_nonneg _) (by positivity)
    · rcases Option.map_eq_some'.mp h with ⟨m, -, rfl⟩
      exact Nat.cast_nonneg m
    · rcases Option.bind_eq_some.mp h with ⟨i, -, h2⟩
      rcases Option.bind_eq_some.mp h2 with ⟨vc, -, h3⟩
      rcases Option.some.injEq _ _ ▸ h3 with rfl
      have : (0 : ℚ) ≤ (vc.1 : ℚ) / (10 : ℚ) ^ vc.2 :=
        div_nonneg (Nat.cast_nonneg _) (by positivity)
      have hi : (0 : ℚ) ≤ (i : ℚ) := Nat.cast_nonneg i
      linarith

theorem pyFloatNum?_nonneg {l : List Char} {q : ℚ} (h : pyFloatNum? l = some q) :
    0 ≤ q := by
  unfold pyFloatNum? at h
  split at h
  · exact mantissaVal?_nonneg h
  · rcases Option.bind_eq_some.mp h with ⟨mv, hmv, h2⟩
    rcases Option.bind_eq_some.mp h2 with ⟨ev, -, h3⟩
    rcases Option.some.injEq _ _ ▸ h3 with rfl
    have h10 : (0 : ℚ) < (10 : ℚ) ^ ev := zpow_pos (by norm_num) ev
    exact mul_nonneg (mantissaVal?_nonneg hmv) h10.le

theorem pyFloat?_of_no_neg {l : List Char} {v : PyFloat} (h : pyFloat? l = some v)
    (hm : '-' ∉ l) :
    v = .inf ∨ v = .nan ∨ ∃ q, v = .finite q ∧ 0 ≤ q := by
  unfold pyFloat? at h
  split at h
  · rename_i rest heq
    refine absurd (mem_pyStrip (l := l) ?_) hm
    rw [heq]
    exact List.mem_cons_self _ _
  all_goals {
    unfold pyFloatBody? at h
    split at h
    · rcases Option.some.injEq _ _ ▸ h with rfl
      exact Or.inl rfl
    · split at h
      · rcases Option.some.injEq _ _ ▸ h with rfl
        exact Or.inr (Or.inl rfl)
      · rcases Option.map_eq_some'.mp h with ⟨q, hq, rfl⟩
        exact Or.inr (Or.inr ⟨q, rfl, pyFloatNum?_nonneg hq⟩)
  }

theorem costOfToken_of_no_neg {tok : List Char} {v : PyFloat}
    (h : costOfToken tok = some v) (hm : '-' ∉ tok) :
    v = .inf ∨ v = .nan ∨ ∃ q, v = .finite q ∧ 0 ≤ q := by
  unfold costOfToken at h
  split at h
  · rcases Option.some.injEq _ _ ▸ h with rfl
    exact Or.inl rfl
  · exact pyFloat?_of_no_neg h hm

/-! ### Helper lemmas: how one loop iteration acts on the state -/

theorem stepF_header (st : Option (List Char) × List CriarCsv.RecordF) (l : List Char)
    (hh : (pyStrip l).getLast? = some ':') :
    CriarCsv.stepF st l = some (some (pyStrip l).dropLast, st.2) := by
  unfold CriarCsv.stepF
  dsimp only
  rw [if_pos hh]

theorem stepF_skip (st : Option (List Char) × List CriarCsv.RecordF) (l : List Char)
    (hh : ¬ (pyStrip l).getLast? = some ':') (hr : lineResF l = .skip) :
    CriarCsv.stepF st l = some st := by
  unfold CriarCsv.stepF
  unfold lineResF at hr
  dsimp only at hr ⊢
  rw [if_neg hh]
  split
  · rfl
  · rename_i alg heq
    split
    · rfl
    · rename_i hcond
      push_neg at hcond
      rw [if_neg hcond.2] at hr
      split
      · rename_i h5
        rw [if_pos h5] at hr
        rw [hr]
      · rfl

theorem stepF_ok (alg : List Char) (acc : List CriarCsv.RecordF) (l : List Char)
    (e : Entry) (ha : alg ≠ []) (hh : ¬ (pyStrip l).getLast? = some ':')
    (hr : lineResF l = .ok e) :
    CriarCsv.stepF (some alg, acc) l = some (some alg, acc ++ [⟨e, alg⟩]) := by
  unfold CriarCsv.stepF
  unfold lineResF at hr
  dsimp only at hr ⊢
  rw [if_neg hh]
  have ht : pyStrip l ≠ [] := by
    intro h0
    rw [if_pos h0] at hr
    exact LineRes.noConfusion hr
  rw [if_neg (by push_neg; exact ⟨ha, ht⟩)]
  rw [if_neg ht] at hr
  split
  · rename_i h5
    rw [if_pos h5] at hr
    rw [hr]
  · rename_i h5
    rw [if_neg h5] at hr
    exact LineRes.noConfusion hr

theorem stepF_err (alg : List Char) (acc : List CriarCsv.RecordF) (l : List Char)
    (ha : alg ≠ []) (hh : ¬ (pyStrip l).getLast? = some ':')
    (hr : lineResF l = .err) :
    CriarCsv.stepF (some alg, acc) l = none := by
  unfold CriarCsv.stepF
  unfold lineResF at hr
  dsimp only at hr ⊢
  rw [if_neg hh]
  have ht : pyStrip l ≠ [] := by
    intro h0
    rw [if_pos h0] at hr
    exact LineRes.noConfusion hr
  rw [if_neg (by push_neg; exact ⟨ha, ht⟩)]
  rw [if_neg ht] at hr
  split
  · rename_i h5
    rw [if_pos h5] at hr
    rw [hr]
  · rename_i h5
    rw [if_neg h5] at hr
    exact LineRes.noConfusion hr

theorem stepG_header (st : Option (List Char) × Comparasolucao.Dict) (l : List Char)
    (hh : (pyStrip l).getLast? = some ':') :
    Comparasolucao.stepG st l =
      some (some (pyStrip l).dropLast, Comparasolucao.dictSet st.2 (pyStrip l).dropLast []) := by
  unfold Comparasolucao.stepG
  dsimp only
  rw [if_pos hh]

theorem stepG_skip (st : Option (List Char) × Comparasolucao.Dict) (l : List Char)
    (hh : ¬ (pyStrip l).getLast? = some ':') (hr : lineResG l = .skip) :
    Comparasolucao.stepG st l = some st := by
  unfold Comparasolucao.stepG
  unfold lineResG at hr
  dsimp only at hr ⊢
  rw [if_neg hh]
  split
  · rfl
  · rename_i alg heq
    split
    · rfl
    · rename_i hcond
      push_neg at hcond
      rw [if_neg hcond.2] at hr
      split
      · rename_i h5
        rw [if_pos h5] at hr
        rw [hr]
      · rfl

theorem stepG_ok (alg : List Char) (d : Comparasolucao.Dict) (l : List Char)
    (e : Entry) (ha : alg ≠ []) (hh : ¬ (pyStrip l).getLast? = some ':')
    (hr : lineResG l = .ok e) :
    Comparasolucao.stepG (some alg, d) l = some (some alg, Comparasolucao.dictAppend d alg e) := by
  unfold Comparasolucao.stepG
  unfold lineResG at hr
  dsimp only at hr ⊢
  rw [if_neg hh]
  have ht : pyStrip l ≠ [] := by
    intro h0
    rw [if_pos h0] at hr
    exact LineRes.noConfusion hr
  rw [if_neg (by push_neg; exact ⟨ha, ht⟩)]
  rw [if_neg ht] at hr
  split
  · rename_i h5
    rw [if_pos h5] at hr
    rw [hr]
  · rename_i h5
    rw [if_neg h5] at hr
    exact LineRes.noConfusion hr

theorem runF_cons (st : Option (List Char) × List CriarCsv.RecordF) (l : List Char)
    (ls : List (List Char)) :
    CriarCsv.runLines st (l :: ls) =
      match CriarCsv.stepF st l with
      | none => none
      | some st' => CriarCsv.runLines st' ls := rfl

theorem runG_cons (st : Option (List Char) × Comparasolucao.Dict) (l : List Char)
    (ls : List (List Char)) :
    Comparasolucao.runLines st (l :: ls) =
      match Comparasolucao.stepG st l with
      | none => none
      | some st' => Comparasolucao.runLines st' ls := rfl

/-- Processing a run of non-header, non-crashing lines inside a truthy
section appends exactly the entries of those lines, each tagged with the
section name (the flat parser). -/
theorem runF_section :
    ∀ (ls : List (List Char)) (alg : List Char) (acc : List CriarCsv.RecordF),
      alg ≠ [] →
      (∀ l ∈ ls, ¬ (pyStrip l).getLast? = some ':' ∧ lineResF l ≠ .err) →
      CriarCsv.runLines (some alg, acc) ls =
        some (some alg, acc ++ (entriesF ls).map (fun e => ⟨e, alg⟩)) := by
  intro ls
  induction ls with
  | nil => intro alg acc ha h; simp [CriarCsv.runLines, entriesF]
  | cons l ls ih =>
    intro alg acc ha h
    obtain ⟨hh, he⟩ := h l (List.mem_cons_self _ _)
    have hrest := fun x hx => h x (List.mem_cons_of_mem _ hx)
    rcases hr : lineResF l with e | - | -
    · rw [runF_cons, stepF_ok alg acc l e ha hh hr]
      dsimp only
      rw [ih alg (acc ++ [(⟨e, alg⟩ : CriarCsv.RecordF)]) ha hrest]
      have : entriesF (l :: ls) = e :: entriesF ls := by
        unfold entriesF
        rw [List.filterMap_cons]
        rw [hr]
      rw [this]
      simp
    · rw [runF_cons, stepF_skip (some alg, acc) l hh hr]
      dsimp only
      rw [ih alg acc ha hrest]
      have : entriesF (l :: ls) = entriesF ls := by
        unfold entriesF
        rw [List.filterMap_cons]
        rw [hr]
      rw [this]
    · exact absurd hr he

/-- Processing a run of non-header, non-crashing lines inside a truthy
section whose bucket is the single dict entry appends exactly the entries of
those lines to that bucket (the grouped parser). -/
theorem runG_section :
    ∀ (ls : List (List Char)) (alg : List Char) (v : List Entry),
      alg ≠ [] →
      (∀ l ∈ ls, ¬ (pyStrip l).getLast? = some ':' ∧ lineResG l ≠ .err) →
      Comparasolucao.runLines (some alg, [(alg, v)]) ls =
        some (some alg, [(alg, v ++ entriesG ls)]) := by
  intro ls
  induction ls with
  | nil => intro alg v ha h; simp [Comparasolucao.runLines, entriesG]
  | cons l ls ih =>
    intro alg v ha h
    obtain ⟨hh, he⟩ := h l (List.mem_cons_self _ _)
    have hrest := fun x hx => h x (List.mem_cons_of_mem _ hx)
    rcases hr : lineResG l with e | - | -
    · rw [runG_cons, stepG_ok alg [(alg, v)] l e ha hh hr]
      dsimp only
      have hd : Comparasolucao.dictAppend [(alg, v)] alg e = [(alg, v ++ [e])] := by
        simp [Comparasolucao.dictAppend]
      rw [hd, ih alg (v ++ [e]) ha hrest]
      have : entriesG (l :: ls) = e :: entriesG ls := by
        unfold entriesG
        rw [List.filterMap_cons]
        rw [hr]
      rw [this]
      simp
    · rw [runG_cons, stepG_skip (some alg, [(alg, v)]) l hh hr]
      dsimp only
      rw [ih alg v ha hrest]
      have : entriesG (l :: ls) = entriesG ls := by
        unfold entriesG
        rw [List.filterMap_cons]
        rw [hr]
      rw [this]
    · exact absurd hr he

theorem runF_append :
    ∀ (xs ys : List (List Char)) (st : Option (List Char) × List CriarCsv.RecordF),
      CriarCsv.runLines st (xs ++ ys) =
        (CriarCsv.runLines st xs).bind (fun st' => CriarCsv.runLines st' ys) := by
  intro xs
  induction xs with
  | nil => intro ys st; rfl
  | cons x xs ih =>
    intro ys st
    rw [List.cons_append, runF_cons, runF_cons]
    rcases CriarCsv.stepF st x with - | st'
    · rfl
    · exact ih ys st'

theorem runG_append :
    ∀ (xs ys : List (List Char)) (st : Option (List Char) × Comparasolucao.Dict),
      Comparasolucao.runLines st (xs ++ ys) =
        (Comparasolucao.runLines st xs).bind (fun st' => Comparasolucao.runLines st' ys) := by
  intro xs
  induction xs with
  | nil => intro ys st; rfl
  | cons x xs ih =>
    intro ys st
    rw [List.cons_append, runG_cons, runG_cons]
    rcases Comparasolucao.stepG st x with - | st'
    · rfl
    · exact ih ys st'

/-- A section block: a header line followed by a run of plain data lines
appends that block's tagged entries to the accumulator (flat parser). -/
theorem runF_block (hdr : List Char) (ls : List (List Char))
    (st : Option (List Char) × List CriarCsv.RecordF)
    (hh : (pyStrip hdr).getLast? = some ':')
    (hname : (pyStrip hdr).dropLast ≠ [])
    (h : ∀ l ∈ ls, ¬ (pyStrip l).getLast? = some ':' ∧ lineResF l ≠ .err) :
    CriarCsv.runLines st (hdr :: ls) =
      some (some (pyStrip hdr).dropLast,
        st.2 ++ (entriesF ls).map (fun e => ⟨e, (pyStrip hdr).dropLast⟩)) := by
  rw [runF_cons, stepF_header st hdr hh]
  exact runF_section ls _ st.2 hname h

/-- A section block whose header's bucket reset produces the singleton dict
fills that bucket with exactly the block's entries (grouped parser). -/
theorem runG_block (hdr : List Char) (ls : List (List Char))
    (st : Option (List Char) × Comparasolucao.Dict)
    (hh : (pyStrip hdr).getLast? = some ':')
    (hname : (pyStrip hdr).dropLast ≠ [])
    (hdict : Comparasolucao.dictSet st.2 (pyStrip hdr).dropLast [] =
      [((pyStrip hdr).dropLast, [])])
    (h : ∀ l ∈ ls, ¬ (pyStrip l).getLast? = some ':' ∧ lineResG l ≠ .err) :
    Comparasolucao.runLines st (hdr :: ls) =
      some (some (pyStrip hdr).dropLast, [((pyStrip hdr).dropLast, entriesG ls)]) := by
  rw [runG_cons, stepG_header st hdr hh]
  dsimp only
  rw [hdict]
  have := runG_section ls (pyStrip hdr).dropLast [] hname h
  rw [List.nil_append] at this
  exact this

/-! ### Helper lemmas: the grouped dict -/

theorem dictFind?_dictSet_self (d : Comparasolucao.Dict) (k : List Char)
    (v : List Entry) :
    Comparasolucao.dictFind? (Comparasolucao.dictSet d k v) k = some v := by
  induction d with
  | nil => simp [Comparasolucao.dictSet, Comparasolucao.dictFind?]
  | cons p rest ih =>
    rcases p with ⟨k', v'⟩
    unfold Comparasolucao.dictSet
    by_cases h : k' = k
    · rw [if_pos h]
      simp [Comparasolucao.dictFind?]
    · rw [if_neg h]
      unfold Comparasolucao.dictFind?
      rw [if_neg h]
      exact ih

theorem dictFind?_dictSet_ne (d : Comparasolucao.Dict) (k k' : List Char)
    (v : List Entry) (h : k' ≠ k) :
    Comparasolucao.dictFind? (Comparasolucao.dictSet d k v) k' =
      Comparasolucao.dictFind? d k' := by
  induction d with
  | nil =>
    simp only [Comparasolucao.dictSet, Comparasolucao.dictFind?]
    rw [if_neg (fun hk => h hk.symm)]
  | cons p rest ih =>
    rcases p with ⟨k₀, v₀⟩
    unfold Comparasolucao.dictSet
    by_cases h0 : k₀ = k
    · rw [if_pos h0]
      unfold Comparasolucao.dictFind?
      rw [if_neg (fun hk => h hk.symm), if_neg (fun hk => h (hk.symm.trans h0))]
    · rw [if_neg h0]
      unfold Comparasolucao.dictFind?
      by_cases h1 : k₀ = k'
      · rw [if_pos h1, if_pos h1]
      · rw [if_neg h1, if_neg h1]
        exact ih

theorem dictFind?_dictAppend_ne (d : Comparasolucao.Dict) (k k' : List Char)
    (e : Entry) (h : k' ≠ k) :
    Comparasolucao.dictFind? (Comparasolucao.dictAppend d k e) k' =
      Comparasolucao.dictFind? d k' := by
  induction d with
  | nil => rfl
  | cons p rest ih =>
    rcases p with ⟨k₀, v₀⟩
    unfold Comparasolucao.dictAppend
    by_cases h0 : k₀ = k
    · rw [if_pos h0]
      unfold Comparasolucao.dictFind?
      rw [if_neg (fun hk => h (hk.symm.trans h0)), if_neg (fun hk => h (hk.symm.trans h0))]
    · rw [if_neg h0]
      unfold Comparasolucao.dictFind?
      by_cases h1 : k₀ = k'
      · rw [if_pos h1, if_pos h1]
      · rw [if_neg h1, if_neg h1]
        exact ih

/-- Invariant: the bucket of the empty-string key (when present) is empty. -/
def emptyKeyInv (d : Comparasolucao.Dict) : Prop :=
  ∀ v, Comparasolucao.dictFind? d [] = some v → v = []

theorem stepG_emptyKeyInv (st : Option (List Char) × Comparasolucao.Dict)
    (l : List Char) (st' : Option (List Char) × Comparasolucao.Dict)
    (hstep : Comparasolucao.stepG st l = some st') (hinv : emptyKeyInv st.2) :
    emptyKeyInv st'.2 := by
  unfold Comparasolucao.stepG at hstep
  dsimp only at hstep
  split at hstep
  · rcases Option.some.injEq _ _ ▸ hstep with rfl
    intro v hv
    by_cases hk : (pyStrip l).dropLast = []
    · rw [hk] at hv
      rw [dictFind?_dictSet_self] at hv
      exact (Option.some.injEq _ _ ▸ hv).symm
    · rw [dictFind?_dictSet_ne _ _ _ _ (fun h0 => hk h0.symm)] at hv
      exact hinv v hv
  · split at hstep
    · rcases Option.some.injEq _ _ ▸ hstep with rfl
      exact hinv
    · rename_i alg heq
      split at hstep
      · rcases Option.some.injEq _ _ ▸ hstep with rfl
        exact hinv
      · rename_i hcond
        push_neg at hcond
        split at hstep
        · split at hstep
          · rcases Option.some.injEq _ _ ▸ hstep with rfl
            intro v hv
            rw [dictFind?_dictAppend_ne _ _ _ _ (fun h0 => hcond.1 h0.symm)] at hv
            exact hinv v hv
          · rcases Option.some.injEq _ _ ▸ hstep with rfl
            exact hinv
          · exact Option.noConfusion hstep
        · rcases Option.some.injEq _ _ ▸ hstep with rfl
          exact hinv

theorem runG_emptyKeyInv :
    ∀ (ls : List (List Char)) (st st' : Option (List Char) × Comparasolucao.Dict),
      Comparasolucao.runLines st ls = some st' → emptyKeyInv st.2 → emptyKeyInv st'.2 := by
  intro ls
  induction ls with
  | nil =>
    intro st st' h hinv
    rcases Option.some.injEq _ _ ▸ h with rfl
    exact hinv
  | cons l ls ih =>
    intro st st' h hinv
    rw [runG_cons] at h
    rcases hs : Comparasolucao.stepG st l with - | st₀
    · rw [hs] at h
      exact Option.noConfusion h
    · rw [hs] at h
      exact ih st₀ st' h (stepG_emptyKeyInv st l st₀ hs hinv)

theorem runLines_skips :
    ∀ (ls : List (List Char)) (st : Option (List Char) × List CriarCsv.RecordF),
      (∀ l ∈ ls, (pyStrip l).getLast? = some ':' ∨ lineResF l = .skip) →
      ∃ cur', CriarCsv.runLines st ls = some (cur', st.2) := by
  intro ls
  induction ls with
  | nil => intro st h; exact ⟨st.1, rfl⟩
  | cons l ls ih =>
    intro st h
    rcases h l (List.mem_cons_self _ _) with hl | hl
    · rw [runF_cons, stepF_header st l hl]
      exact ih (some (pyStrip l).dropLast, st.2) (fun x hx => h x (List.mem_cons_of_mem _ hx))
    · by_cases hh : (pyStrip l).getLast? = some ':'
      · rw [runF_cons, stepF_header st l hh]
        exact ih (some (pyStrip l).dropLast, st.2) (fun x hx => h x (List.mem_cons_of_mem _ hx))
      · rw [runF_cons, stepF_skip st l hh hl]
        exact ih st (fun x hx => h x (List.mem_cons_of_mem _ hx))

/-! ### The claims -/

/-- C1, counterexample.  The claim says `parse_data` never raises to its
caller; but the data line `1|2| |4|X` inside a section has five fields, its
first two fields convert, and its cost field has no whitespace-delimited
token, so `parts[2].replace(' cost','').strip().split()[0]` raises an
uncaught `IndexError` (only `ValueError` is caught).  `none` models that
exception. -/
theorem C1_counterexample :
    CriarCsv.parse_data "a:\n1|2| |4|X" = none := by decide

/-- C1, amended: every malformed data line whose failure is a `ValueError`
(insufficient fields, unparseable numeric field) is silently omitted, and an
input all of whose lines are section headers, blank, or so skipped parses to
the empty record sequence — but a five-field data line whose cost field
contains no token raises an uncaught `IndexError` instead of being
omitted. -/
theorem C1_amended (s : String)
    (h : ∀ l ∈ splitOnChar '\n' (pyStrip s.data),
      (pyStrip l).getLast? = some ':' ∨ lineResF l = .skip) :
    CriarCsv.parse_data s = some [] := by
  obtain ⟨cur', hr⟩ := runLines_skips (splitOnChar '\n' (pyStrip s.data)) (none, []) h
  unfold CriarCsv.parse_data
  rw [hr]
  rfl

/-- C1 witness: a section header followed by a line whose first field fails
integer conversion (a caught `ValueError`) parses to the empty sequence. -/
theorem C1_amended_witness :
    CriarCsv.parse_data "a:\nbad|1|2|3|4\n\n" = some [] :=
  C1_amended "a:\nbad|1|2|3|4\n\n" (by decide)

/-- C2: evaluation at the failing input.  On a standard data line (unit
words ` nodes` / ` goal` / ` actions` present), the flat parser emits one
record under section `a`, while the grouped parser — which omits the
`.replace(' nodes','')` (resp. ` goal`, ` actions`) step, so that
`int('5 nodes')` raises a `ValueError` and the line is skipped — stores
nothing under `a`.  Hence the grouped output differs from the grouping of the
flat output, whose bucket for `a` would hold one entry. -/
theorem C2_eval :
    CriarCsv.parse_data "a:\n  5 nodes |  2 goal |  3 cost |  4 actions | X" =
      some [⟨⟨5, 2, .finite 3, 4, "X".data⟩, "a".data⟩] ∧
    Comparasolucao.parse_data "a:\n  5 nodes |  2 goal |  3 cost |  4 actions | X" =
      some [("a".data, [])] ∧
    ([("a".data, [(⟨5, 2, .finite 3, 4, "X".data⟩ : Entry)])] : Comparasolucao.Dict) ≠
      [("a".data, [])] := by
  refine ⟨by decide, by decide, by decide⟩

/-- C7: evaluation at the failing input.  A line whose integer fields carry
thousands-separator commas and a trailing unit word (`18,151 nodes`) parses
to 18151 in the flat parser, but the grouped parser strips only the commas,
leaving `18151 nodes`, so `int` raises a `ValueError` and the line is
dropped: the grouped parser emits nothing, contradicting the claim (and the
grouped script's own embedded data, all of whose lines carry unit words). -/
theorem C7_eval :
    CriarCsv.parse_data "a:\n   18,151 nodes |    2,096 goal | 2706 cost |   2,200 actions | TOTAL" =
      some [⟨⟨18151, 2096, .finite 2706, 2200, "TOTAL".data⟩, "a".data⟩] ∧
    Comparasolucao.parse_data "a:\n   18,151 nodes |    2,096 goal | 2706 cost |   2,200 actions | TOTAL" =
      some [("a".data, [])] := by
  refine ⟨by decide, by decide⟩

/-- C8: the cost token `inf` parses to the unbounded sentinel (not a parse
failure), the store encoding of the sentinel is the token `inf` (modelled
from the spec, see `encodeSentinel`), and re-parsing that encoding yields the
sentinel again; the full-line scenario with `inf cost` also yields the
sentinel. -/
theorem C8_roundtrip :
    costOfToken "inf".data = some PyFloat.inf ∧
    encodeSentinel = "inf".data ∧
    costOfToken encodeSentinel = some PyFloat.inf ∧
    CriarCsv.parse_data "foo:\n  5 nodes |  2 goal |  inf cost |  4 actions | X\n" =
      some [⟨⟨5, 2, .inf, 4, "X".data⟩, "foo".data⟩] := by
  refine ⟨by decide, by decide, by decide, by decide⟩

/-- C3, counterexample.  Two `a:` blocks with one valid line each: the claim
says that in grouped mode the total number of records under `a` is the sum of
the valid lines of both blocks (2); but the second `a:` header executes
`algorithms['a'] = []`, discarding the first block, so only 1 record
remains. -/
theorem C3_counterexample :
    (Comparasolucao.parse_data "a:\n1|2|3|4|X\na:\n5|6|7|8|Y").map
        (fun d => (Comparasolucao.dictFind? d "a".data).map List.length) =
      some (some 1) ∧ (1 : Nat) ≠ 2 := by
  refine ⟨by decide, by decide⟩

/-- C3, amended: for an input consisting of an `a:` block and a later second
`a:` block (no other headers, no crashing lines), the flat parser accumulates
the records of both blocks under the tag `a` — their count is the sum of the
valid lines of the two blocks — while the grouped parser keeps only the
records of the block after the last `a:` header, because a repeated header
resets that name's bucket to the empty list. -/
theorem C3_amended (s : String) (ls₁ ls₂ : List (List Char))
    (hsplit : splitOnChar '\n' (pyStrip s.data) = "a:".data :: (ls₁ ++ "a:".data :: ls₂))
    (hno : ∀ l ∈ ls₁ ++ ls₂,
      ¬ (pyStrip l).getLast? = some ':' ∧ lineResF l ≠ .err ∧ lineResG l ≠ .err) :
    CriarCsv.parse_data s =
      some ((entriesF ls₁ ++ entriesF ls₂).map (fun e => ⟨e, "a".data⟩)) ∧
    Comparasolucao.parse_data s = some [("a".data, entriesG ls₂)] := by
  have h1 : ∀ l ∈ ls₁, ¬ (pyStrip l).getLast? = some ':' ∧ lineResF l ≠ .err :=
    fun l hl => ⟨(hno l (List.mem_append_left _ hl)).1, (hno l (List.mem_append_left _ hl)).2.1⟩
  have h2 : ∀ l ∈ ls₂, ¬ (pyStrip l).getLast? = some ':' ∧ lineResF l ≠ .err :=
    fun l hl => ⟨(hno l (List.mem_append_right _ hl)).1, (hno l (List.mem_append_right _ hl)).2.1⟩
  have g1 : ∀ l ∈ ls₁, ¬ (pyStrip l).getLast? = some ':' ∧ lineResG l ≠ .err :=
    fun l hl => ⟨(hno l (List.mem_append_left _ hl)).1, (hno l (List.mem_append_left _ hl)).2.2⟩
  have g2 : ∀ l ∈ ls₂, ¬ (pyStrip l).getLast? = some ':' ∧ lineResG l ≠ .err :=
    fun l hl => ⟨(hno l (List.mem_append_right _ hl)).1, (hno l (List.mem_append_right _ hl)).2.2⟩
  have hsplit2 : splitOnChar '\n' (pyStrip s.data) =
      ("a:".data :: ls₁) ++ ("a:".data :: ls₂) := by
    rw [hsplit]
    rfl
  have hname : ((pyStrip "a:".data).dropLast : List Char) ≠ [] := by decide
  have hh : ((pyStrip "a:".data).getLast? : Option Char) = some ':' := by decide
  constructor
  · unfold CriarCsv.parse_data
    rw [hsplit2, runF_append]
    rw [runF_block "a:".data ls₁ (none, []) hh hname h1]
    rw [Option.some_bind]
    rw [runF_block "a:".data ls₂ _ hh hname h2]
    have hn : ((pyStrip "a:".data).dropLast : List Char) = "a".data := by decide
    rw [hn]
    simp
  · unfold Comparasolucao.parse_data
    rw [hsplit2, runG_append]
    rw [runG_block "a:".data ls₁ (none, []) hh hname (by decide) g1]
    rw [Option.some_bind]
    rw [runG_block "a:".data ls₂ _ hh hname
      (by simp [Comparasolucao.dictSet]) g2]
    have hn : ((pyStrip "a:".data).dropLast : List Char) = "a".data := by decide
    rw [hn]
    simp

/-- C3 witness: at a two-block instance the flat parser holds the two
records of both blocks tagged `a`, the grouped parser only the second
block's record. -/
theorem C3_amended_witness :
    CriarCsv.parse_data "a:\n1|2|3|4|X\na:\n5|6|7|8|Y" =
      some [⟨⟨1, 2, .finite 3, 4, "X".data⟩, "a".data⟩,
            ⟨⟨5, 6, .finite 7, 8, "Y".data⟩, "a".data⟩] ∧
    Comparasolucao.parse_data "a:\n1|2|3|4|X\na:\n5|6|7|8|Y" =
      some [("a".data, [⟨5, 6, .finite 7, 8, "Y".data⟩])] :=
  C3_amended "a:\n1|2|3|4|X\na:\n5|6|7|8|Y" ["1|2|3|4|X".data] ["5|6|7|8|Y".data]
    (by decide) (by decide)

/-- C4, counterexample.  On a six-field line whose label contains a pipe
(`A|B`), the claim says the label is the rejoined `A|B`; but the code takes
`parts[4].strip()` only, yielding `A`. -/
theorem C4_counterexample :
    CriarCsv.parse_data "a:\n1 | 2 | 3 | 4 | A|B" =
      some [⟨⟨1, 2, .finite 3, 4, "A".data⟩, "a".data⟩] ∧
    "A".data ≠ "A|B".data := by
  refine ⟨by decide, by decide⟩

/-- C4, amended: in both parsers, the problem label of every emitted record
is always field 4 trimmed, whatever the number of fields; fields beyond
index 4 are ignored, so a label containing a pipe character is truncated at
the first pipe. -/
theorem C4_amended (parts : List (List Char)) (e : Entry) :
    (CriarCsv.parseLineF parts = .ok e → e.problem = pyStrip (parts.getD 4 [])) ∧
    (Comparasolucao.parseLineG parts = .ok e → e.problem = pyStrip (parts.getD 4 [])) := by
  constructor
  · intro h
    unfold CriarCsv.parseLineF at h
    split at h <;> try exact LineRes.noConfusion h
    split at h <;> try exact LineRes.noConfusion h
    split at h <;> try exact LineRes.noConfusion h
    split at h <;> try exact LineRes.noConfusion h
    split at h <;> try exact LineRes.noConfusion h
    simp only [LineRes.ok.injEq] at h
    rw [← h]
  · intro h
    unfold Comparasolucao.parseLineG at h
    split at h <;> try exact LineRes.noConfusion h
    split at h <;> try exact LineRes.noConfusion h
    split at h <;> try exact LineRes.noConfusion h
    split at h <;> try exact LineRes.noConfusion h
    split at h <;> try exact LineRes.noConfusion h
    simp only [LineRes.ok.injEq] at h
    rw [← h]

/-- C4 witness: at the six-field instance the emitted label is field 4
trimmed. -/
theorem C4_amended_witness :
    (⟨1, 2, .finite 3, 4, "A".data⟩ : Entry).problem =
      pyStrip ((["1 ".data, " 2 ".data, " 3 ".data, " 4 ".data, " A".data, "B".data]).getD 4 []) :=
  (C4_amended ["1 ".data, " 2 ".data, " 3 ".data, " 4 ".data, " A".data, "B".data]
    ⟨1, 2, .finite 3, 4, "A".data⟩).1 (by decide)

theorem parseTokens_isSome (ts : List (List Char))
    (h : ∀ t ∈ ts, (pyInt? (pyStrip t)).isSome) :
    ∃ l, GraficoEscolha.parseTokens ts = some l := by
  induction ts with
  | nil => exact ⟨[], rfl⟩
  | cons t ts ih =>
    obtain ⟨n, hn⟩ := Option.isSome_iff_exists.mp (h t (List.mem_cons_self _ _))
    obtain ⟨l, hl⟩ := ih (fun x hx => h x (List.mem_cons_of_mem _ hx))
    refine ⟨(n - 1) :: l, ?_⟩
    unfold GraficoEscolha.parseTokens
    rw [hn, hl]
    rfl

/-- C5, counterexample.  The claim says non-numeric tokens in the selection
string are silently excluded and the tool does not fail; but
`int(x.strip())` is applied to every comma-separated token with no exception
handler, so the token `abc` raises an uncaught `ValueError` (modelled by
`none`). -/
theorem C5_counterexample :
    GraficoEscolha.selected_problems ["X".data] "1,abc" = none := by decide

/-- C5, amended: out-of-range indices (including non-positive ones) are
silently excluded and the charts are generated for the validly selected
problems, all of which belong to the available list — but only when every
comma-separated token parses as an integer; a non-numeric token raises an
uncaught `ValueError` instead of being excluded. -/
theorem C5_amended (avail : List (List Char)) (s : String)
    (h : ∀ t ∈ splitOnChar ',' s.data, (pyInt? (pyStrip t)).isSome) :
    ∃ sel, GraficoEscolha.selected_problems avail s = some sel ∧
      ∀ p ∈ sel, p ∈ avail := by
  obtain ⟨nums, hnums⟩ := parseTokens_isSome (splitOnChar ',' s.data) h
  refine ⟨nums.filterMap (fun i =>
      if 0 ≤ i ∧ i < (avail.length : Int) then some (avail.getD i.toNat []) else none),
    ?_, ?_⟩
  · unfold GraficoEscolha.selected_problems
    rw [hnums]
    rfl
  · intro p hp
    rcases List.mem_filterMap.mp hp with ⟨i, -, hi⟩
    split at hi
    · rename_i hrange
      rcases Option.some.injEq _ _ ▸ hi with rfl
      have hlt : i.toNat < avail.length := by omega
      rw [List.getD_eq_getElem avail [] hlt]
      exact List.getElem_mem hlt
    · exact Option.noConfusion hi

/-- C5 witness: a selection over two problems with out-of-range tokens
`5`, `0` and `-3` does not fail and selects only available problems. -/
theorem C5_amended_witness :
    ∃ sel, GraficoEscolha.selected_problems ["X".data, "Y".data] "2, 5, 1, 0, -3, 2" =
      some sel ∧ ∀ p ∈ sel, p ∈ ["X".data, "Y".data] :=
  C5_amended ["X".data, "Y".data] "2, 5, 1, 0, -3, 2" (by decide)

/-- C6: the concrete scenario — the input
`"foo:\n  5 nodes |  2 goal |  3 cost |  4 actions | X\n"` yields exactly one
record with nodes 5, goal 2, cost 3, actions 4, problem `X` and section tag
(`search` column, the spec's `algorithm`) `foo` — and in general a step of
the flat parser's loop only ever appends records whose tag is the current
section name. -/
theorem C6_scenario :
    CriarCsv.parse_data "foo:\n  5 nodes |  2 goal |  3 cost |  4 actions | X\n" =
      some [⟨⟨5, 2, .finite 3, 4, "X".data⟩, "foo".data⟩] ∧
    ∀ (alg : List Char) (acc : List CriarCsv.RecordF) (l : List Char)
      (st' : Option (List Char) × List CriarCsv.RecordF),
      CriarCsv.stepF (some alg, acc) l = some st' →
      ∀ r ∈ st'.2, r ∈ acc ∨ r.search = alg := by
  constructor
  · decide
  · intro alg acc l st' hstep r hr
    unfold CriarCsv.stepF at hstep
    dsimp only at hstep
    split at hstep
    · rcases Option.some.injEq _ _ ▸ hstep with rfl
      exact Or.inl hr
    · split at hstep
      · rcases Option.some.injEq _ _ ▸ hstep with rfl
        exact Or.inl hr
      · split at hstep
        · split at hstep
          · rcases Option.some.injEq _ _ ▸ hstep with rfl
            rcases List.mem_append.mp hr with h | h
            · exact Or.inl h
            · rcases List.mem_singleton.mp h with rfl
              exact Or.inr rfl
          · rcases Option.some.injEq _ _ ▸ hstep with rfl
            exact Or.inl hr
          · exact Option.noConfusion hstep
        · rcases Option.some.injEq _ _ ▸ hstep with rfl
          exact Or.inl hr

/-- C6 witness: the general tagging property applied at the scenario's data
line with section `foo` active. -/
theorem C6_scenario_witness :
    (⟨⟨5, 2, .finite 3, 4, "X".data⟩, "foo".data⟩ : CriarCsv.RecordF) ∈
      ([] : List CriarCsv.RecordF) ∨
    (⟨⟨5, 2, .finite 3, 4, "X".data⟩, "foo".data⟩ : CriarCsv.RecordF).search = "foo".data :=
  C6_scenario.2 "foo".data [] "  5 nodes |  2 goal |  3 cost |  4 actions | X".data
    (some "foo".data, [⟨⟨5, 2, .finite 3, 4, "X".data⟩, "foo".data⟩])
    (by decide) _ (by decide)

theorem mem_getD_split {c : Char} {sep : Char} {t : List Char} {i : Nat}
    (h : c ∈ (splitOnChar sep t).getD i []) : c ∈ t := by
  by_cases hi : i < (splitOnChar sep t).length
  · rw [List.getD_eq_getElem _ _ hi] at h
    exact mem_splitOnChar (List.getElem_mem hi) h
  · rw [List.getD_eq_default _ _ (le_of_not_lt hi)] at h
    exact absurd h (List.not_mem_nil c)

theorem not_mem_transformed (c : Char) (l pat : List Char) (i : Nat) (h : c ∉ l) :
    c ∉ pyReplace (pyStrip (pyReplace ((splitOnChar '|' (pyStrip l)).getD i []) pat)) ",".data :=
  fun hc =>
    h (mem_pyStrip (mem_getD_split (mem_pyReplace (mem_pyStrip (mem_pyReplace hc)))))

theorem not_mem_costTok (c : Char) (l pat tok : List Char) (i : Nat) (h : c ∉ l)
    (htok : firstTokenWs?
      (pyStrip (pyReplace ((splitOnChar '|' (pyStrip l)).getD i []) pat)) = some tok) :
    c ∉ tok :=
  fun hc =>
    h (mem_pyStrip (mem_getD_split (mem_pyReplace (mem_pyStrip (mem_firstTokenWs htok hc)))))

/-- Successful flat-parse of a line determines each field of the record from
the corresponding transformed source field. -/
theorem parseLineF_fields (parts : List (List Char)) (e : Entry)
    (h : CriarCsv.parseLineF parts = .ok e) :
    ∃ tok,
      pyInt? (pyReplace (pyStrip (pyReplace (parts.getD 0 []) " nodes".data)) ",".data) =
        some e.nodes ∧
      pyInt? (pyReplace (pyStrip (pyReplace (parts.getD 1 []) " goal".data)) ",".data) =
        some e.goal ∧
      firstTokenWs? (pyStrip (pyReplace (parts.getD 2 []) " cost".data)) = some tok ∧
      costOfToken tok = some e.cost ∧
      pyInt? (pyReplace (pyStrip (pyReplace (parts.getD 3 []) " actions".data)) ",".data) =
        some e.actions := by
  unfold CriarCsv.parseLineF at h
  split at h <;> try exact LineRes.noConfusion h
  split at h <;> try exact LineRes.noConfusion h
  split at h <;> try exact LineRes.noConfusion h
  split at h <;> try exact LineRes.noConfusion h
  split at h <;> try exact LineRes.noConfusion h
  rename_i s0 nodes hnodes s1 goal hgoal s2 tok htok s3 cost hcost s4 actions hactions
  simp only [LineRes.ok.injEq] at h
  rw [← h]
  exact ⟨tok, hnodes, hgoal, htok, hcost, hactions⟩

/-- C9, counterexample.  The claim says every emitted record has
non-negative numeric fields; but nothing in the code checks signs, and the
line `-5 nodes | ...` parses to a record with `nodes = -5`. -/
theorem C9_counterexample :
    CriarCsv.parse_data "a:\n-5 nodes | 2 goal | 3 cost | 4 actions | X" =
      some [⟨⟨-5, 2, .finite 3, 4, "X".data⟩, "a".data⟩] ∧
    ¬ (0 : Int) ≤ -5 := by
  refine ⟨by decide, by decide⟩

/-- C9, amended: for every data line containing no `-` character, the
emitted record (if any) has non-negative `nodes`, `goal` and `actions`, and
its cost is the unbounded sentinel, NaN (when the token is a NaN form), or a
non-negative rational; negative inputs produce negative fields, so the
unconditional non-negativity claimed by the spec does not hold. -/
theorem C9_amended (l : List Char) (e : Entry) (h : lineResF l = .ok e)
    (hneg : '-' ∉ l) :
    0 ≤ e.nodes ∧ 0 ≤ e.goal ∧ 0 ≤ e.actions ∧
      (e.cost = .inf ∨ e.cost = .nan ∨ ∃ q, e.cost = .finite q ∧ 0 ≤ q) := by
  unfold lineResF at h
  dsimp only at h
  split at h
  · exact LineRes.noConfusion h
  · split at h
    · obtain ⟨tok, hnodes, hgoal, htok, hcost, hactions⟩ :=
        parseLineF_fields (splitOnChar '|' (pyStrip l)) e h
      refine ⟨pyInt?_nonneg hnodes (not_mem_transformed '-' l " nodes".data 0 hneg),
        pyInt?_nonneg hgoal (not_mem_transformed '-' l " goal".data 1 hneg),
        pyInt?_nonneg hactions (not_mem_transformed '-' l " actions".data 3 hneg),
        ?_⟩
      exact costOfToken_of_no_neg hcost (not_mem_costTok '-' l " cost".data tok 2 hneg htok)
    · exact LineRes.noConfusion h

/-- C9 witness: the amended invariant at a concrete sign-free line. -/
theorem C9_amended_witness :
    0 ≤ (⟨1, 2, .finite 3, 4, "X".data⟩ : Entry).nodes ∧
    0 ≤ (⟨1, 2, .finite 3, 4, "X".data⟩ : Entry).goal ∧
    0 ≤ (⟨1, 2, .finite 3, 4, "X".data⟩ : Entry).actions ∧
    ((⟨1, 2, .finite 3, 4, "X".data⟩ : Entry).cost = .inf ∨
     (⟨1, 2, .finite 3, 4, "X".data⟩ : Entry).cost = .nan ∨
     ∃ q, (⟨1, 2, .finite 3, 4, "X".data⟩ : Entry).cost = .finite q ∧ 0 ≤ q) :=
  C9_amended "1|2|3|4|X".data ⟨1, 2, .finite 3, 4, "X".data⟩ (by decide) (by decide)

/-- C10: a colon-only header sets the section name to the empty string,
which is falsy, so (i) concretely, the grouped parser creates an entry for
the empty key with an empty bucket and the flat parser drops the data line;
(ii) while the flat parser's current section is the empty string, no step
ever adds a record (until some header changes the section); (iii) on every
input, any bucket the grouped parser holds under the empty-string key is
empty. -/
theorem C10_emptySection :
    (Comparasolucao.parse_data ":\n1|2|3|4|X" = some [([], [])] ∧
     CriarCsv.parse_data ":\n1|2|3|4|X" = some []) ∧
    (∀ (acc : List CriarCsv.RecordF) (l : List Char),
      ∃ cur', CriarCsv.stepF (some [], acc) l = some (cur', acc)) ∧
    (∀ (s : String) (d : Comparasolucao.Dict),
      Comparasolucao.parse_data s = some d →
      ∀ v, Comparasolucao.dictFind? d [] = some v → v = []) := by
  refine ⟨⟨by decide, by decide⟩, ?_, ?_⟩
  · intro acc l
    unfold CriarCsv.stepF
    dsimp only
    split
    · exact ⟨some (pyStrip l).dropLast, rfl⟩
    · rw [if_pos (Or.inl rfl)]
      exact ⟨some [], rfl⟩
  · intro s d hd v hv
    unfold Comparasolucao.parse_data at hd
    rcases hr : Comparasolucao.runLines (none, []) (splitOnChar '\n' (pyStrip s.data)) with
      - | st'
    · rw [hr] at hd
      exact Option.noConfusion hd
    · rw [hr] at hd
      have hinv : emptyKeyInv st'.2 :=
        runG_emptyKeyInv _ (none, []) st' hr (fun v hv => Option.noConfusion hv)
      rcases Option.some.injEq _ _ ▸ hd with rfl
      exact hinv v hv

/-- C10 witness: instantiating the per-step and whole-input parts at a
concrete state and input. -/
theorem C10_emptySection_witness :
    (∃ cur', CriarCsv.stepF (some [], []) "1|2|3|4|X".data = some (cur', [])) ∧
    ([] : List Entry) = [] :=
  ⟨C10_emptySection.2.1 [] "1|2|3|4|X".data,
   C10_emptySection.2.2 ":\n1|2|3|4|X" [([], [])] (by decide) [] (by decide)⟩

end GCS
